import Mathlib

/-!
Shallow embedding of the shopino.crawler repository (src/clothing_crawler.py
and src/x.py) and proofs about its specified behaviour.

Conventions of the embedding:
* Python strings are Lean `String`s (lists of Unicode scalar values); bytes
  are `Nat`s below 256.
* The filesystem is an association list from paths to typed file contents;
  a write either fully happens or the raising step happens before it.
* Network responses are supplied by an environment value, one outcome per
  URL, so theorems quantify over all network behaviours.
-/

namespace Shopino


/-! ## UTF-8 model (Python `str.encode('utf-8')` / `bytes.decode('utf-8', 'ignore')`)

`decode_text` in clothing_crawler.py round-trips a string through UTF-8.
We model the codec at the codepoint/byte level. -/

/-- UTF-8 encoding of one Unicode scalar value (Python `str.encode('utf-8')`,
per code point). -/
def utf8EncodeChar (c : Nat) : List Nat :=
  if c < 0x80 then [c]
  else if c < 0x800 then [0xC0 + c / 0x40, 0x80 + c % 0x40]
  else if c < 0x10000 then
    [0xE0 + c / 0x1000, 0x80 + (c / 0x40) % 0x40, 0x80 + c % 0x40]
  else
    [0xF0 + c / 0x40000, 0x80 + (c / 0x1000) % 0x40, 0x80 + (c / 0x40) % 0x40,
      0x80 + c % 0x40]

/-- A UTF-8 continuation byte. -/
def isCont (b : Nat) : Prop := 0x80 ≤ b ∧ b < 0xC0

instance (b : Nat) : Decidable (isCont b) := by unfold isCont; infer_instance

/-- One step of a strict UTF-8 decoder: given the lead byte and the remaining
bytes, return the decoded scalar value (or `none` for an invalid sequence,
which Python's `'ignore'` error handler drops) and the bytes not consumed.
Overlong encodings, surrogates and out-of-range values are rejected, as in
CPython's decoder. -/
def utf8DecodeStep (b0 : Nat) (rest : List Nat) : Option Nat × List Nat :=
  if b0 < 0x80 then (some b0, rest)
  else if b0 < 0xC0 then (none, rest)
  else if b0 < 0xE0 then
    match rest with
    | b1 :: r =>
      if isCont b1 then
        let c := (b0 - 0xC0) * 0x40 + (b1 - 0x80)
        (if 0x80 ≤ c then some c else none, r)
      else (none, rest)
    | [] => (none, [])
  else if b0 < 0xF0 then
    match rest with
    | b1 :: b2 :: r =>
      if isCont b1 ∧ isCont b2 then
        let c := (b0 - 0xE0) * 0x1000 + (b1 - 0x80) * 0x40 + (b2 - 0x80)
        (if 0x800 ≤ c ∧ (c < 0xD800 ∨ 0xE000 ≤ c) then some c else none, r)
      else (none, rest)
    | _ => (none, [])
  else if b0 < 0xF8 then
    match rest with
    | b1 :: b2 :: b3 :: r =>
      if isCont b1 ∧ isCont b2 ∧ isCont b3 then
        let c := (b0 - 0xF0) * 0x40000 + (b1 - 0x80) * 0x1000 +
          (b2 - 0x80) * 0x40 + (b3 - 0x80)
        (if 0x10000 ≤ c ∧ c < 0x110000 then some c else none, r)
      else (none, rest)
    | _ => (none, [])
  else (none, rest)

/-- Decode at most `fuel` UTF-8 sequences; each step consumes at least one
byte, so `fuel = length` decodes the whole input. Structural recursion on
`fuel` keeps the definition computable by the kernel. -/
def utf8DecodeAux : Nat → List Nat → List Nat
  | 0, _ => []
  | _, [] => []
  | fuel + 1, b0 :: rest =>
    let st := utf8DecodeStep b0 rest
    (match st.1 with
      | some c => [c]
      | none => []) ++ utf8DecodeAux fuel st.2

/-- UTF-8 decoding with Python's `'ignore'` error handler: invalid sequences
are skipped, valid ones contribute their scalar value. -/
def utf8Decode (l : List Nat) : List Nat := utf8DecodeAux l.length l

/-- A Unicode scalar value: in range and not a surrogate. -/
def validCp (c : Nat) : Prop := c < 0x110000 ∧ (c < 0xD800 ∨ 0xE000 ≤ c)

/-- The code-point sequence of a Lean string. -/
def strCps (s : String) : List Nat := s.data.map Char.toNat

/-- `decode_text` from clothing_crawler.py:
`if text: return text.encode('utf-8').decode('utf-8', 'ignore')` and
`return None` otherwise (`None` and the empty string are falsy). -/
def decode_text : Option String → Option String
  | none => none
  | some s =>
    if s = "" then none
    else some ⟨(utf8Decode ((strCps s).flatMap utf8EncodeChar)).map Char.ofNat⟩

/-! ## Filename sanitization (clothing_crawler.py `sanitize_filename`) -/

/-- Model of Python `re` `\w` for the inputs this program meets: ASCII
alphanumerics and the underscore. (Python's `\w` additionally matches
non-ASCII alphanumerics; for this regex the Arabic block U+0600-U+06FF,
the only non-ASCII range the program's site produces, is covered by the
explicit range in `allowedChar`.) -/
def reWordChar (c : Char) : Bool := c.isAlphanum || c == '_'

/-- The character class kept by the regex
`[^\w\-\_؀-ۿ ]` in `sanitize_filename`. -/
def allowedChar (c : Char) : Bool :=
  reWordChar c || c == '-' || c == '_' ||
    (decide (0x600 ≤ c.toNat) && decide (c.toNat ≤ 0x6FF)) || c == ' '

/-- `sanitize_filename` from clothing_crawler.py:
`re.sub(r'[^\w\-\_؀-ۿ ]', '_', name)` — a character-wise
replacement of every disallowed character by `'_'`. -/
def sanitize_filename (name : String) : String :=
  ⟨name.data.map (fun c => if allowedChar c then c else '_')⟩

/-! ## Category table (clothing_crawler.py `insert_category`)

The `categories` table is an append-only list of
`(main_category, sub_category, url)` rows; `insert_category` first counts
rows with the given `(main_category, sub_category)` pair and only inserts
when the count is zero. -/

/-- A row of the `categories` table. -/
abbrev CategoryRow := String × String × String

/-- The `(main_category, sub_category)` key of a row. -/
def catKey (r : CategoryRow) : String × String := (r.1, r.2.1)

/-- `insert_category` from clothing_crawler.py: `SELECT COUNT(*) ... WHERE
main_category = ? AND sub_category = ?`, then `INSERT` only when the count
is zero. -/
def insert_category (tbl : List CategoryRow)
    (main_category_name subcategory_name subcategory_url : String) : List CategoryRow :=
  if (tbl.filter
        (fun r => r.1 == main_category_name && r.2.1 == subcategory_name)).length = 0
  then tbl ++ [(main_category_name, subcategory_name, subcategory_url)]
  else tbl

/-- Run a whole sequence of `insert_category` calls starting from a table. -/
def insertCategories (tbl : List CategoryRow) (calls : List CategoryRow) : List CategoryRow :=
  calls.foldl (fun t c => insert_category t c.1 c.2.1 c.2.2) tbl

/-! ## Filesystem, paths and network model -/

/-- A byte string (image body). -/
abbrev Bytes := List Nat

/-- Extracted per-product metadata, the dictionary built by
`extract_product_metadata`. clothing_crawler.py fills `main_category` and
`sub_category`; x.py has no category fields, modelled as `none`. Entries of
`related_lists` are the `name` values (clothing_crawler.py passes them
through `decode_text`, hence `Option String`). -/
structure Metadata where
  product_id : String
  url : String
  main_category : Option String
  sub_category : Option String
  title : Option String
  description : Option String
  price : Option String
  old_price : Option String
  discount_percentage : Option String
  shop_url : Option String
  shop_name : Option String
  images : List String
  related_lists : List (Option String)
  deriving Repr, DecidableEq

/-- Contents of a file on disk: a downloaded image body or the JSON
sidecar serialization of a metadata dictionary. -/
inductive FileData
  | img (content : Bytes)
  | json (m : Metadata)
  deriving Repr, DecidableEq

/-- The filesystem: an association list from paths to file contents; a
write prepends and shadows older entries, `List.lookup` reads. -/
abbrev FS := List (String × FileData)

/-- Write (create or overwrite) one file, atomically. -/
def setFile (fs : FS) (p : String) (d : FileData) : FS := (p, d) :: fs

/-- `os.path.join(a, b)` for the relative non-empty components this program
joins. -/
def pathJoin (a b : String) : String := a ++ "/" ++ b

/-- `os.path.basename`: the part of the URL/path after the last slash. -/
def basename (s : String) : String :=
  ⟨s.data.foldl (fun acc c => if c = '/' then [] else acc ++ [c]) []⟩

/-- Coarse model of `urllib.parse.urljoin`: an absolute URL is kept, a
relative one is resolved against the base. No claim depends on its
internals. -/
def urljoin (base rel : String) : String :=
  if rel.data.take 4 = ['h', 't', 't', 'p'] then rel else base ++ rel

/-- Outcome of `requests.get` on an image URL: a connection error (raises
`requests.exceptions.RequestException`) or a response with a status code
and body. -/
inductive ImgFetch
  | connectError
  | resp (status : Nat) (body : Bytes)

/-- An `<img class='svelte-13ln6ur'>` element: its `src` attribute if
present (`tag['src']` raises `KeyError` when absent). -/
structure ImgTag where
  src : Option String

/-- The `<a class='shop-info svelte-7lo6ed'>` element: its `href`
attribute, and its `<img>` child (with that child's `alt` attribute),
each possibly absent. -/
structure ShopTag where
  href : Option String
  imgAlt : Option (Option String)

/-- The parsed product page. Text fields hold the `.text.strip()` value of
the first matching node, `none` when no node matches; `related` holds the
`get_text(strip=True)` values of the related-product anchors in order. -/
structure ProductSoup where
  title : Option String
  description : Option String
  price : Option String
  old_price : Option String
  discount : Option String
  shop : Option ShopTag
  imageTags : List ImgTag
  related : List String

/-- Outcome of `get_soup` on the product page URL: failure (connection
error or `raise_for_status`) or a parsed page. -/
inductive PageFetch
  | fail
  | ok (soup : ProductSoup)

/-- The run environment: the configured base URL and the network's answer
for the product page and for each image URL. -/
structure Env where
  base_url : String
  page : PageFetch
  image : String → ImgFetch

/-- Python `requests.Response.raise_for_status` raises exactly for status
codes 400–599. -/
def statusRaises (status : Nat) : Prop := 400 ≤ status ∧ status < 600

instance (status : Nat) : Decidable (statusRaises status) := by
  unfold statusRaises; infer_instance

/-- `save_image` from clothing_crawler.py: fetch the URL; on a
`RequestException` (connection error or error status) print and return
`None`; otherwise create the folder and write the body to
`folder/filename`, returning that path. -/
def save_image (env : Env) (url folder filename : String) (fs : FS) :
    Option String × FS :=
  match env.image url with
  | .connectError => (none, fs)
  | .resp status body =>
    if statusRaises status then (none, fs)
    else
      let file_path := pathJoin folder filename
      (some file_path, setFile fs file_path (.img body))

/-! ## clothing_crawler.py `extract_product_metadata` -/

/-- The per-product folder `assets/<sanitized main>/<sanitized sub>/<id>`
of clothing_crawler.py. -/
def product_folder (main_category sub_category product_id : String) : String :=
  pathJoin (pathJoin (pathJoin "assets" (sanitize_filename main_category))
    (sanitize_filename sub_category)) product_id

/-- The JSON sidecar path `<product_folder>/<id>.json` of
clothing_crawler.py. -/
def jsonPathC (main_category sub_category product_id : String) : String :=
  pathJoin (product_folder main_category sub_category product_id) (product_id ++ ".json")

/-- The shop-details block of clothing_crawler.py: skipped when no shop
anchor matches; `shop_tag['href']` raises `KeyError` (modelled as
`.error`) when the anchor has no `href`; the shop name comes from the
`alt` of the nested `<img>`, defaulting to `"No Shop Name"`. -/
def shopStepC (base_url : String) : Option ShopTag → Except Unit (Option String × Option String)
  | none => .ok (none, none)
  | some st =>
    match st.href with
    | none => .error ()
    | some h =>
      let shop_url := some (urljoin base_url h)
      let shop_name :=
        match st.imgAlt with
        | some (some alt) => decode_text (some alt)
        | some none => some "No Shop Name"
        | none => some "No Shop Name"
      .ok (shop_url, shop_name)

/-- The image loop of clothing_crawler.py: for every matched tag read
`tag['src']` (raising `KeyError` when absent, modelled as `.error`
carrying the filesystem at that point), call `save_image`, and append
`os.path.join(product_folder, basename)` to the images list whether or
not the download succeeded. No de-duplication. -/
def imageLoopC (env : Env) (folder : String) :
    List ImgTag → FS → Except FS (FS × List String)
  | [], fs => .ok (fs, [])
  | tag :: rest, fs =>
    match tag.src with
    | none => .error fs
    | some img_url =>
      let img_filename := basename img_url
      let res := save_image env img_url folder img_filename fs
      match imageLoopC env folder rest res.2 with
      | .ok (fs2, paths) => .ok (fs2, pathJoin folder img_filename :: paths)
      | .error fs2 => .error fs2

/-- The body of clothing_crawler.py's `extract_product_metadata` (inside
the catch-all): fetch and parse the page, extract the fields, download the
images, then write the JSON sidecar. `.error fs` is the state at the point
an exception is raised; `.ok` carries the final state, the metadata and
the sidecar path. -/
def extract_core (env : Env)
    (main_category sub_category product_id product_url : String) (fs : FS) :
    Except FS (FS × Metadata × String) :=
  match env.page with
  | .fail => .error fs
  | .ok soup =>
    let title :=
      match soup.title with
      | some t => decode_text (some t)
      | none => some "No Title"
    let description :=
      match soup.description with
      | some t => decode_text (some t)
      | none => some "No Description"
    let price :=
      match soup.price with
      | some t => decode_text (some t)
      | none => some "No Price"
    let old_price :=
      match soup.old_price with
      | some t => decode_text (some t)
      | none => none
    let discount_percentage :=
      match soup.discount with
      | some t => decode_text (some t)
      | none => none
    match shopStepC env.base_url soup.shop with
    | .error () => .error fs
    | .ok (shop_url, shop_name) =>
      let folder := product_folder main_category sub_category product_id
      match imageLoopC env folder soup.imageTags fs with
      | .error fs1 => .error fs1
      | .ok (fs1, images) =>
        let related_lists := soup.related.map (fun n => decode_text (some n))
        let metadata : Metadata :=
          { product_id := product_id, url := product_url,
            main_category := some main_category, sub_category := some sub_category,
            title := title, description := description, price := price,
            old_price := old_price, discount_percentage := discount_percentage,
            shop_url := shop_url, shop_name := shop_name,
            images := images, related_lists := related_lists }
        let json_path := jsonPathC main_category sub_category product_id
        .ok (setFile fs1 json_path (.json metadata), metadata, json_path)

/-- `extract_product_metadata` from clothing_crawler.py: the body wrapped
in `try/except Exception`, so the function always returns normally with
whatever filesystem state the body reached. -/
def extract_product_metadata (env : Env)
    (main_category sub_category product_id product_url : String) (fs : FS) : FS :=
  match extract_core env main_category sub_category product_id product_url fs with
  | .ok (fs1, _, _) => fs1
  | .error fs1 => fs1

/-! ## x.py `extract_product_metadata` -/

/-- The JSON sidecar path `assets/<id>/<id>.json` of x.py. -/
def jsonPathX (product_id : String) : String :=
  pathJoin (pathJoin "assets" product_id) (product_id ++ ".json")

/-- The shop-details block of x.py: as in clothing_crawler.py but without
`decode_text` and with the hard-coded base URL. -/
def shopStepX : Option ShopTag → Except Unit (Option String × Option String)
  | none => .ok (none, none)
  | some st =>
    match st.href with
    | none => .error ()
    | some h =>
      let shop_url := some (urljoin "https://shopino.app" h)
      let shop_name :=
        match st.imgAlt with
        | some (some alt) => some alt
        | some none => some "No Shop Name"
        | none => some "No Shop Name"
      .ok (shop_url, shop_name)

/-- The image loop of x.py: skip empty or already-seen URLs (set
de-duplication), download inline with `raise_for_status` — so a fetch
failure raises out of the loop into the catch-all (`.error` carries the
state at that point) — and append the path only after a successful
write. -/
def imageLoopX (env : Env) (product_id : String) :
    List ImgTag → List String → FS → Except FS (FS × List String)
  | [], _, fs => .ok (fs, [])
  | tag :: rest, image_urls, fs =>
    match tag.src with
    | none => .error fs
    | some img_url =>
      if img_url ≠ "" ∧ img_url ∉ image_urls then
        match env.image img_url with
        | .connectError => .error fs
        | .resp status body =>
          if statusRaises status then .error fs
          else
            let img_path := pathJoin (pathJoin "assets" product_id) (basename img_url)
            let fs1 := setFile fs img_path (.img body)
            match imageLoopX env product_id rest (img_url :: image_urls) fs1 with
            | .ok (fs2, paths) => .ok (fs2, img_path :: paths)
            | .error fs2 => .error fs2
      else imageLoopX env product_id rest image_urls fs

/-- The body of x.py's `extract_product_metadata` (inside the catch-all).
No category fields, no `decode_text`. -/
def extract_core_x (env : Env) (product_id product_url : String) (fs : FS) :
    Except FS (FS × Metadata × String) :=
  match env.page with
  | .fail => .error fs
  | .ok soup =>
    let title := some (soup.title.getD "No Title")
    let description := some (soup.description.getD "No Description")
    let price := some (soup.price.getD "No Price")
    match shopStepX soup.shop with
    | .error () => .error fs
    | .ok (shop_url, shop_name) =>
      match imageLoopX env product_id soup.imageTags [] fs with
      | .error fs1 => .error fs1
      | .ok (fs1, images) =>
        let metadata : Metadata :=
          { product_id := product_id, url := product_url,
            main_category := none, sub_category := none,
            title := title, description := description, price := price,
            old_price := soup.old_price, discount_percentage := soup.discount,
            shop_url := shop_url, shop_name := shop_name,
            images := images, related_lists := soup.related.map some }
        let json_path := jsonPathX product_id
        .ok (setFile fs1 json_path (.json metadata), metadata, json_path)

/-- `extract_product_metadata` from x.py: the body wrapped in
`try/except Exception`. -/
def extract_product_metadata_x (env : Env) (product_id product_url : String)
    (fs : FS) : FS :=
  match extract_core_x env product_id product_url fs with
  | .ok (fs1, _, _) => fs1
  | .error fs1 => fs1

/-! ## Record persistence (products table) -/

/-- A row of the `products` table created in clothing_crawler.py. -/
structure ProductRow where
  main_category : String
  sub_category : String
  title : Option String
  old_price : Option String
  new_price : Option String
  description : Option String
  seller_url : Option String
  image_folder : String
  json_path : String
  deriving Repr, DecidableEq

/-- Modelled from the spec: the `INSERT` into the `products` table. The
table is declared in src/clothing_crawler.py, but the code performing the
insert is in the third pipeline file of the repository, which is not under
src/; per spec §4.6 it inserts one row per persisted product referencing
the JSON sidecar path and the image folder path. -/
def insert_product_row (products : List ProductRow) (m : Metadata)
    (image_folder json_path : String) : List ProductRow :=
  products ++
    [{ main_category := m.main_category.getD "",
       sub_category := m.sub_category.getD "",
       title := m.title, old_price := m.old_price, new_price := m.price,
       description := m.description, seller_url := m.shop_url,
       image_folder := image_folder, json_path := json_path }]

/-- Combined persistent state: the filesystem and the `products` table. -/
structure CrawlState where
  fs : FS
  products : List ProductRow

/-- Modelled from the spec: one product of the pipeline — run
clothing_crawler.py's per-product extraction and, exactly when it
completes, insert the product row (spec §4.6; the insert lives in the
pipeline file missing from src/). -/
def crawl_one_product (env : Env)
    (main_category sub_category product_id product_url : String)
    (st : CrawlState) : CrawlState :=
  match extract_core env main_category sub_category product_id product_url st.fs with
  | .error fs1 => { st with fs := fs1 }
  | .ok (fs1, m, json_path) =>
    { fs := fs1,
      products := insert_product_row st.products m
        (product_folder main_category sub_category product_id) json_path }

/-! ## Pagination (clothing_crawler.py `crawl_products_for_category`) -/

/-- One `article class='svelte-nicmne'` node of a listing page: the href
of its product link when the link matches, `none` otherwise (the loop
`continue`s on those). -/
abbrev Article := Option String

/-- The inner `for product in products` loop: check the quota before each
article, skip articles without a product link, extract and count
otherwise. Returns the updated crawled count (each increment is one
invocation of per-product extraction). -/
def processArticles (quota : Nat) : List Article → Nat → Nat
  | [], crawled => crawled
  | a :: rest, crawled =>
    if quota ≤ crawled then crawled
    else
      match a with
      | none => processArticles quota rest crawled
      | some _ => processArticles quota rest (crawled + 1)

/-- The `while crawled_products < PRODUCTS_PER_SUBCATEGORY` loop of
`crawl_products_for_category`, from page `page` with `crawled` products
so far. `site n` is the article list parsed from `?page=n`. Returns the
pages fetched (in order) and the number of per-product extraction
invocations. `fuel` bounds the number of iterations observed: the source
loop has no such bound, so theorems quantify over all `fuel`. -/
def crawlLoop (site : Nat → List Article) (quota : Nat) :
    Nat → Nat → Nat → List Nat × Nat
  | 0, _, _ => ([], 0)
  | fuel + 1, page, crawled =>
    if crawled < quota then
      let products := site page
      if products = [] then ([page], 0)
      else
        let c1 := processArticles quota products crawled
        let rec1 := crawlLoop site quota fuel (page + 1) c1
        (page :: rec1.1, (c1 - crawled) + rec1.2)
    else ([], 0)

/-- `crawl_products_for_category`: the loop starts at page 1 with zero
crawled products. -/
def crawl_products_for_category (site : Nat → List Article) (quota fuel : Nat) :
    List Nat × Nat :=
  crawlLoop site quota fuel 1 0

/-! ## Filesystem predicates and concrete environments -/

/-- No JSON sidecar file is present at path `p`. -/
def noJsonAt (fs : FS) (p : String) : Prop :=
  ∀ m, fs.lookup p ≠ some (.json m)

/-- The filesystem carried by either outcome of a fallible step. -/
def resultFS : Except FS (FS × List String) → FS
  | .ok (fs, _) => fs
  | .error fs => fs

/-- An environment whose product-page fetch fails. -/
def envFail : Env :=
  { base_url := "https://shopino.app", page := .fail,
    image := fun _ => .connectError }

/-- A minimal product page: no optional fields, no images, no related
names. -/
def soupEmpty : ProductSoup :=
  { title := none, description := none, price := none, old_price := none,
    discount := none, shop := none, imageTags := [], related := [] }

/-- An environment whose product-page fetch succeeds with the minimal
page. -/
def envEmptyPage : Env :=
  { base_url := "https://shopino.app", page := .ok soupEmpty,
    image := fun _ => .connectError }

/-- The metadata clothing_crawler.py extracts from the minimal page. -/
def mdEmpty : Metadata :=
  { product_id := "p1", url := "u", main_category := some "m",
    sub_category := some "s", title := some "No Title",
    description := some "No Description", price := some "No Price",
    old_price := none, discount_percentage := none, shop_url := none,
    shop_name := none, images := [], related_lists := [] }

/-- A product page repeating one image URL twice, with a network that
serves it successfully. -/
def soupDup : ProductSoup :=
  { title := none, description := none, price := none, old_price := none,
    discount := none, shop := none,
    imageTags := [⟨some "http://h/i.jpg"⟩, ⟨some "http://h/i.jpg"⟩],
    related := [] }

def envDup : Env :=
  { base_url := "https://shopino.app", page := .ok soupDup,
    image := fun _ => .resp 200 [7] }

/-- The metadata clothing_crawler.py extracts from `soupDup`: the duplicate
URL produces two entries in `images`. -/
def mdDup : Metadata :=
  { product_id := "p1", url := "u", main_category := some "m",
    sub_category := some "s", title := some "No Title",
    description := some "No Description", price := some "No Price",
    old_price := none, discount_percentage := none, shop_url := none,
    shop_name := none,
    images := ["assets/m/s/p1/i.jpg", "assets/m/s/p1/i.jpg"],
    related_lists := [] }

/-- An environment answering every image request with status 300 (a
non-2xx status that `raise_for_status` does not raise on). -/
def env300 : Env :=
  { base_url := "b", page := .fail, image := fun _ => .resp 300 [7] }

/-- A page with one image whose download will fail. -/
def soupC9 : ProductSoup :=
  { title := none, description := none, price := none, old_price := none,
    discount := none, shop := none, imageTags := [⟨some "http://h/i.jpg"⟩],
    related := [] }

def envC9 : Env :=
  { base_url := "https://shopino.app", page := .ok soupC9,
    image := fun _ => .connectError }

/-- The metadata clothing_crawler.py extracts from `soupC9`: the image path
is recorded although the download failed. -/
def mdC9 : Metadata :=
  { product_id := "p1", url := "u", main_category := some "m",
    sub_category := some "s", title := some "No Title",
    description := some "No Description", price := some "No Price",
    old_price := none, discount_percentage := none, shop_url := none,
    shop_name := none, images := ["assets/m/s/p1/i.jpg"],
    related_lists := [] }

/-! ## Lemmas and claim theorems -/

theorem utf8DecodeStep_length (b0 : Nat) (rest : List Nat) :
    (utf8DecodeStep b0 rest).2.length ≤ rest.length := by
  rcases rest with _ | ⟨b1, _ | ⟨b2, _ | ⟨b3, r⟩⟩⟩ <;>
    simp only [utf8DecodeStep] <;> repeat' split
  all_goals simp
  all_goals omega

theorem utf8DecodeAux_nil (fuel : Nat) : utf8DecodeAux fuel [] = [] := by
  cases fuel <;> rfl

theorem utf8DecodeAux_fuel : ∀ (f1 : Nat) (l : List Nat) (f2 : Nat),
    l.length ≤ f1 → l.length ≤ f2 → utf8DecodeAux f1 l = utf8DecodeAux f2 l := by
  intro f1
  induction f1 with
  | zero =>
    intro l f2 h1 _
    have hl : l = [] := List.length_eq_zero.mp (by omega)
    subst hl
    rw [utf8DecodeAux_nil, utf8DecodeAux_nil]
  | succ f1 ih =>
    intro l f2 h1 h2
    cases l with
    | nil => rw [utf8DecodeAux_nil, utf8DecodeAux_nil]
    | cons b0 rest =>
      cases f2 with
      | zero => simp at h2
      | succ f2 =>
        show (match (utf8DecodeStep b0 rest).1 with
            | some c => [c]
            | none => []) ++ utf8DecodeAux f1 (utf8DecodeStep b0 rest).2 =
          (match (utf8DecodeStep b0 rest).1 with
            | some c => [c]
            | none => []) ++ utf8DecodeAux f2 (utf8DecodeStep b0 rest).2
        have hl := utf8DecodeStep_length b0 rest
        rw [ih (utf8DecodeStep b0 rest).2 f2 (by simp at h1; omega) (by simp at h2; omega)]

theorem utf8DecodeStep_enc1 (c : Nat) (h1 : c < 0x80) (rest : List Nat) :
    utf8DecodeStep c rest = (some c, rest) := by
  simp only [utf8DecodeStep]
  rw [if_pos h1]

theorem utf8DecodeStep_enc2 (c : Nat) (h1 : 0x80 ≤ c) (h2 : c < 0x800) (rest : List Nat) :
    utf8DecodeStep (0xC0 + c / 0x40) ((0x80 + c % 0x40) :: rest) = (some c, rest) := by
  simp only [utf8DecodeStep, isCont]
  repeat' split
  all_goals simp_all
  all_goals omega

theorem utf8DecodeStep_enc3 (c : Nat) (h1 : 0x800 ≤ c) (h2 : c < 0x10000)
    (hs : c < 0xD800 ∨ 0xE000 ≤ c) (rest : List Nat) :
    utf8DecodeStep (0xE0 + c / 0x1000)
      ((0x80 + (c / 0x40) % 0x40) :: (0x80 + c % 0x40) :: rest) = (some c, rest) := by
  simp only [utf8DecodeStep, isCont]
  repeat' split
  all_goals simp_all
  all_goals omega

theorem utf8DecodeStep_enc4 (c : Nat) (h1 : 0x10000 ≤ c) (h2 : c < 0x110000)
    (rest : List Nat) :
    utf8DecodeStep (0xF0 + c / 0x40000)
      ((0x80 + (c / 0x1000) % 0x40) :: (0x80 + (c / 0x40) % 0x40) ::
        (0x80 + c % 0x40) :: rest) = (some c, rest) := by
  simp only [utf8DecodeStep, isCont]
  repeat' split
  all_goals simp_all
  all_goals omega

theorem utf8EncodeChar_length_pos (c : Nat) : 1 ≤ (utf8EncodeChar c).length := by
  unfold utf8EncodeChar
  split_ifs <;> simp

theorem utf8DecodeAux_encodeChar (c : Nat) (h : validCp c) (rest : List Nat)
    (fuel : Nat) :
    utf8DecodeAux (fuel + 1) (utf8EncodeChar c ++ rest) =
      c :: utf8DecodeAux fuel rest := by
  obtain ⟨hlt, hs⟩ := h
  by_cases h1 : c < 0x80
  · rw [utf8EncodeChar, if_pos h1, List.cons_append, List.nil_append,
      utf8DecodeAux, utf8DecodeStep_enc1 c h1]
    rfl
  · by_cases h2 : c < 0x800
    · rw [utf8EncodeChar, if_neg h1, if_pos h2, List.cons_append,
        List.cons_append, List.nil_append, utf8DecodeAux,
        utf8DecodeStep_enc2 c (by omega) h2]
      rfl
    · by_cases h3 : c < 0x10000
      · rw [utf8EncodeChar, if_neg h1, if_neg h2, if_pos h3, List.cons_append,
          List.cons_append, List.cons_append, List.nil_append, utf8DecodeAux,
          utf8DecodeStep_enc3 c (by omega) h3 hs]
        rfl
      · rw [utf8EncodeChar, if_neg h1, if_neg h2, if_neg h3, List.cons_append,
          List.cons_append, List.cons_append, List.cons_append,
          List.nil_append, utf8DecodeAux,
          utf8DecodeStep_enc4 c (by omega) hlt]
        rfl

theorem utf8Decode_encodeChar (c : Nat) (h : validCp c) (rest : List Nat) :
    utf8Decode (utf8EncodeChar c ++ rest) = c :: utf8Decode rest := by
  unfold utf8Decode
  have hp := utf8EncodeChar_length_pos c
  obtain ⟨n, hn⟩ : ∃ n, (utf8EncodeChar c ++ rest).length = n + 1 :=
    ⟨(utf8EncodeChar c).length + rest.length - 1, by simp; omega⟩
  rw [hn, utf8DecodeAux_encodeChar c h rest n]
  have : utf8DecodeAux n rest = utf8DecodeAux rest.length rest := by
    apply utf8DecodeAux_fuel n rest rest.length _ (Nat.le_refl _)
    simp at hn
    omega
  rw [this]

theorem utf8Decode_encode (l : List Nat) (h : ∀ c ∈ l, validCp c) :
    utf8Decode (l.flatMap utf8EncodeChar) = l := by
  induction l with
  | nil => simp [utf8Decode, utf8DecodeAux_nil]
  | cons c tl ih =>
    rw [List.flatMap_cons, utf8Decode_encodeChar c (h c (by simp)),
      ih (fun x hx => h x (by simp [hx]))]

theorem validCp_char (c : Char) : validCp c.toNat := by
  have hv := c.valid
  unfold UInt32.isValidChar Nat.isValidChar at hv
  unfold validCp
  have he : c.toNat = c.val.toNat := rfl
  rw [he]
  omega

theorem decode_text_some (s : String) (h : s ≠ "") : decode_text (some s) = some s := by
  simp only [decode_text]
  rw [if_neg h]
  congr 1
  apply String.ext
  show (utf8Decode ((strCps s).flatMap utf8EncodeChar)).map Char.ofNat = s.data
  have hval : ∀ c ∈ strCps s, validCp c := by
    intro c hc
    simp only [strCps, List.mem_map] at hc
    obtain ⟨a, _, rfl⟩ := hc
    exact validCp_char a
  rw [utf8Decode_encode (strCps s) hval]
  unfold strCps
  rw [List.map_map]
  have : (Char.ofNat ∘ Char.toNat) = id := by
    funext c
    exact Char.ofNat_toNat c
  rw [this, List.map_id]

theorem sanitize_step_idem (c : Char) :
    (if allowedChar (if allowedChar c then c else '_') then
        (if allowedChar c then c else '_') else '_') =
      (if allowedChar c then c else '_') := by
  have hu : allowedChar '_' = true := by decide
  by_cases h : allowedChar c = true
  · simp [h]
  · simp [h, hu]

theorem sanitize_filename_data (s : String) :
    (sanitize_filename s).data = s.data.map (fun c => if allowedChar c then c else '_') := rfl

theorem insert_category_mem (tbl : List CategoryRow) (m s u : String)
    (h : ∃ r ∈ tbl, catKey r = (m, s)) : insert_category tbl m s u = tbl := by
  unfold insert_category
  rw [if_neg]
  intro hlen
  obtain ⟨r, hr, hk⟩ := h
  rw [List.length_eq_zero] at hlen
  have : r ∈ tbl.filter (fun r => r.1 == m && r.2.1 == s) := by
    rw [List.mem_filter]
    refine ⟨hr, ?_⟩
    have h1 : r.1 = m := congrArg Prod.fst hk
    have h2 : r.2.1 = s := congrArg Prod.snd hk
    simp [h1, h2]
  rw [hlen] at this
  exact absurd this (List.not_mem_nil r)

theorem insert_category_nodup (tbl : List CategoryRow) (m s u : String)
    (h : (tbl.map catKey).Nodup) : ((insert_category tbl m s u).map catKey).Nodup := by
  unfold insert_category
  split_ifs with hc
  · rw [List.map_append, List.map_singleton]
    apply List.Nodup.append h (List.nodup_singleton _)
    intro k hk hk'
    rw [List.mem_singleton] at hk'
    subst hk'
    rw [List.mem_map] at hk
    obtain ⟨r, hr, hkr⟩ := hk
    rw [List.length_eq_zero, List.filter_eq_nil_iff] at hc
    have := hc r hr
    have h1 : r.1 = m := congrArg Prod.fst hkr
    have h2 : r.2.1 = s := congrArg Prod.snd hkr
    simp [h1, h2] at this
  · exact h

theorem insertCategories_nodup (calls : List CategoryRow) (tbl : List CategoryRow)
    (h : (tbl.map catKey).Nodup) : ((insertCategories tbl calls).map catKey).Nodup := by
  induction calls generalizing tbl with
  | nil => exact h
  | cons c tl ih =>
    exact ih _ (insert_category_nodup tbl c.1 c.2.1 c.2.2 h)

/-! ## Pagination lemmas -/

theorem processArticles_ge (quota : Nat) (l : List Article) (crawled : Nat) :
    crawled ≤ processArticles quota l crawled := by
  induction l generalizing crawled with
  | nil => exact Nat.le_refl _
  | cons a rest ih =>
    simp only [processArticles]
    split_ifs with h
    · exact Nat.le_refl _
    · cases a with
      | none => exact ih crawled
      | some href => exact Nat.le_trans (by omega) (ih (crawled + 1))

theorem processArticles_le_quota (quota : Nat) (l : List Article) (crawled : Nat)
    (h : crawled ≤ quota) : processArticles quota l crawled ≤ quota := by
  induction l generalizing crawled with
  | nil => exact h
  | cons a rest ih =>
    simp only [processArticles]
    split_ifs with h1
    · exact h
    · cases a with
      | none => exact ih crawled h
      | some href => exact ih (crawled + 1) (by omega)

theorem crawlLoop_count (site : Nat → List Article) (quota : Nat) :
    ∀ (fuel page crawled : Nat), crawled ≤ quota →
      (crawlLoop site quota fuel page crawled).2 ≤ quota - crawled := by
  intro fuel
  induction fuel with
  | zero =>
    intro page crawled h
    simp [crawlLoop]
  | succ fuel ih =>
    intro page crawled h
    simp only [crawlLoop]
    split_ifs with h1 h2
    · simp
    · have hge := processArticles_ge quota (site page) crawled
      have hle := processArticles_le_quota quota (site page) crawled h
      have hrec := ih (page + 1) (processArticles quota (site page) crawled) hle
      simp only []
      omega
    · simp

theorem crawlLoop_no_fetch_past_empty (site : Nat → List Article) (quota N M : Nat)
    (hN : site N = []) (hM : N < M) :
    ∀ (fuel page crawled : Nat), page ≤ N →
      M ∉ (crawlLoop site quota fuel page crawled).1 := by
  intro fuel
  induction fuel with
  | zero =>
    intro page crawled h
    simp [crawlLoop]
  | succ fuel ih =>
    intro page crawled hpage
    simp only [crawlLoop]
    split_ifs with h1 h2
    · simp only [List.mem_singleton]
      omega
    · intro hmem
      rcases List.mem_cons.mp hmem with he | hm
      · omega
      · have hne : page ≠ N := by
          intro he2
          exact h2 (he2 ▸ hN)
        exact ih (page + 1) _ (by omega) hm
    · simp

/-! ## Claim theorems -/

/-- C4: `sanitize_filename` is total — for any input string its output
contains only characters of the allowed class (word characters, hyphen,
underscore, space, and the Arabic/Persian block U+0600-U+06FF; everything
else is replaced by `'_'`) — and it is idempotent. -/
theorem sanitize_filename_total_and_idem :
    (∀ s : String, ∀ c ∈ (sanitize_filename s).data, allowedChar c = true) ∧
    (∀ s : String, sanitize_filename (sanitize_filename s) = sanitize_filename s) := by
  constructor
  · intro s c hc
    rw [sanitize_filename_data, List.mem_map] at hc
    obtain ⟨a, _, rfl⟩ := hc
    by_cases h : allowedChar a = true
    · rw [if_pos h]
      exact h
    · rw [if_neg h]
      decide
  · intro s
    apply String.ext
    rw [sanitize_filename_data, sanitize_filename_data, List.map_map]
    apply List.map_congr_left
    intro a _
    show (if allowedChar (if allowedChar a then a else '_') then
        (if allowedChar a then a else '_') else '_') =
      (if allowedChar a then a else '_')
    exact sanitize_step_idem a

theorem sanitize_filename_total_and_idem_witness : allowedChar 'a' = true :=
  sanitize_filename_total_and_idem.1 "a!" 'a' (by decide)

/-- C5: the categories table never holds two rows with the same
`(main_category, sub_category)` pair — inserting an existing pair leaves
the table unchanged, and any sequence of `insert_category` calls starting
from the empty table yields pairwise-distinct keys. -/
theorem insert_category_unique :
    (∀ (tbl : List CategoryRow) (m s u : String),
      (∃ r ∈ tbl, catKey r = (m, s)) → insert_category tbl m s u = tbl) ∧
    (∀ calls : List CategoryRow, ((insertCategories [] calls).map catKey).Nodup) :=
  ⟨insert_category_mem, fun calls => insertCategories_nodup calls [] (by simp)⟩

theorem insert_category_unique_witness :
    insert_category [("a", "b", "u")] "a" "b" "u2" = [("a", "b", "u")] :=
  insert_category_unique.1 [("a", "b", "u")] "a" "b" "u2"
    ⟨("a", "b", "u"), by simp, rfl⟩

/-- C6: the pagination loop invokes per-product extraction at most
`PRODUCTS_PER_SUBCATEGORY` (the quota) times, for every site, quota and
number of loop iterations observed. -/
theorem extraction_count_le_quota (site : Nat → List Article) (quota fuel : Nat) :
    (crawl_products_for_category site quota fuel).2 ≤ quota := by
  have h := crawlLoop_count site quota fuel 1 0 (Nat.zero_le _)
  unfold crawl_products_for_category
  omega

/-- C7: if page `N` (with `N ≥ 1`) of a subcategory listing yields zero
product article nodes, the pagination loop stops at page `N`: it never
requests page `N + 1` (nor any later page). -/
theorem pagination_stops_on_empty_page (site : Nat → List Article)
    (quota fuel N : Nat) (h1 : 1 ≤ N) (h2 : site N = []) :
    (N + 1) ∉ (crawl_products_for_category site quota fuel).1 ∧
    (∀ M, N < M → M ∉ (crawl_products_for_category site quota fuel).1) :=
  ⟨crawlLoop_no_fetch_past_empty site quota N (N + 1) h2 (by omega) fuel 1 0 h1,
    fun M hM => crawlLoop_no_fetch_past_empty site quota N M h2 hM fuel 1 0 h1⟩

theorem pagination_stops_on_empty_page_witness :
    (3 : Nat) ∉ (crawl_products_for_category
      (fun p => if p = 1 then [some "a"] else []) 5 10).1 :=
  (pagination_stops_on_empty_page (fun p => if p = 1 then [some "a"] else [])
    5 10 2 (by decide) rfl).1

/-- C10: `decode_text` is the identity on every non-empty string (the
UTF-8 encode/decode round trip changes no characters) and returns `None`
for `None` and for the empty string; hence for any shared stripped text
the two files' extraction results differ at most in this
`None`-for-empty behaviour. -/
theorem decode_text_roundtrip :
    decode_text none = none ∧ decode_text (some "") = none ∧
    (∀ s : String, s ≠ "" → decode_text (some s) = some s) ∧
    (∀ s : String, decode_text (some s) = some s ∨
      (s = "" ∧ decode_text (some s) = none)) := by
  refine ⟨rfl, by decide, fun s h => decode_text_some s h, fun s => ?_⟩
  by_cases h : s = ""
  · subst h
    exact Or.inr ⟨rfl, by decide⟩
  · exact Or.inl (decode_text_some s h)

theorem decode_text_roundtrip_witness : decode_text (some "abc") = some "abc" :=
  decode_text_roundtrip.2.2.1 "abc" (by decide)

theorem lookup_setFile_self (fs : FS) (p : String) (d : FileData) :
    (setFile fs p d).lookup p = some d := by
  simp [setFile, List.lookup]

theorem resultFS_ok (fs : FS) (paths : List String) :
    resultFS (.ok (fs, paths)) = fs := rfl

theorem resultFS_error (fs : FS) : resultFS (.error fs) = fs := rfl

theorem lookup_setFile_ne (fs : FS) (p q : String) (d : FileData) (h : p ≠ q) :
    (setFile fs q d).lookup p = fs.lookup p := by
  have hb : (p == q) = false := beq_eq_false_iff_ne.mpr h
  simp [setFile, List.lookup, hb]

theorem noJsonAt_setFile_img (fs : FS) (p q : String) (b : Bytes)
    (h : noJsonAt fs p) : noJsonAt (setFile fs q (.img b)) p := by
  intro m
  by_cases hpq : p = q
  · subst hpq
    rw [lookup_setFile_self]
    simp
  · rw [lookup_setFile_ne fs p q _ hpq]
    exact h m

theorem save_image_noJson (env : Env) (url folder filename : String) (fs : FS)
    (p : String) (h : noJsonAt fs p) :
    noJsonAt (save_image env url folder filename fs).2 p := by
  unfold save_image
  cases henv : env.image url with
  | connectError => exact h
  | resp status body =>
    dsimp only
    split_ifs with hs
    · exact h
    · exact noJsonAt_setFile_img fs p _ body h

theorem imageLoopC_noJson (env : Env) (folder : String) :
    ∀ (tags : List ImgTag) (fs : FS) (p : String), noJsonAt fs p →
      noJsonAt (resultFS (imageLoopC env folder tags fs)) p := by
  intro tags
  induction tags with
  | nil =>
    intro fs p h
    exact h
  | cons tag rest ih =>
    intro fs p h
    cases hsrc : tag.src with
    | none =>
      simp only [imageLoopC, hsrc, resultFS_error]
      exact h
    | some img_url =>
      have hsave := save_image_noJson env img_url folder (basename img_url) fs p h
      have hrec := ih (save_image env img_url folder (basename img_url) fs).2 p hsave
      simp only [imageLoopC, hsrc]
      cases hl : imageLoopC env folder rest
          (save_image env img_url folder (basename img_url) fs).2 with
      | ok pr =>
        obtain ⟨fs2, paths⟩ := pr
        rw [hl] at hrec
        simp only [resultFS_ok] at hrec
        simp only [hl, resultFS_ok]
        exact hrec
      | error fs2 =>
        rw [hl] at hrec
        simp only [resultFS_error] at hrec
        simp only [hl, resultFS_error]
        exact hrec

theorem imageLoopX_noJson (env : Env) (product_id : String) :
    ∀ (tags : List ImgTag) (seen : List String) (fs : FS) (p : String),
      noJsonAt fs p →
      noJsonAt (resultFS (imageLoopX env product_id tags seen fs)) p := by
  intro tags
  induction tags with
  | nil =>
    intro seen fs p h
    exact h
  | cons tag rest ih =>
    intro seen fs p h
    cases hsrc : tag.src with
    | none =>
      simp only [imageLoopX, hsrc, resultFS_error]
      exact h
    | some img_url =>
      simp only [imageLoopX, hsrc]
      split_ifs with hc
      · cases himg : env.image img_url with
        | connectError =>
          simp only [resultFS_error]
          exact h
        | resp status body =>
          dsimp only
          split_ifs with hs
          · exact h
          · have hset := noJsonAt_setFile_img fs p
              (pathJoin (pathJoin "assets" product_id) (basename img_url)) body h
            have hrec := ih (img_url :: seen) _ p hset
            cases hl : imageLoopX env product_id rest (img_url :: seen)
                (setFile fs (pathJoin (pathJoin "assets" product_id)
                  (basename img_url)) (.img body)) with
            | ok pr =>
              obtain ⟨fs2, paths⟩ := pr
              rw [hl] at hrec
              simp only [resultFS_ok] at hrec
              simp only [hl, resultFS_ok]
              exact hrec
            | error fs2 =>
              rw [hl] at hrec
              simp only [resultFS_error] at hrec
              simp only [hl, resultFS_error]
              exact hrec
      · exact ih seen fs p h

theorem extract_core_error_noJson (env : Env)
    (main_category sub_category product_id product_url : String) (fs fs1 : FS)
    (p : String) (h : extract_core env main_category sub_category product_id
      product_url fs = .error fs1) (hp : noJsonAt fs p) : noJsonAt fs1 p := by
  unfold extract_core at h
  cases henv : env.page with
  | fail =>
    rw [henv] at h
    cases h
    exact hp
  | ok soup =>
    rw [henv] at h
    dsimp only at h
    cases hshop : shopStepC env.base_url soup.shop with
    | error e =>
      rw [hshop] at h
      cases h
      exact hp
    | ok pr =>
      obtain ⟨shop_url, shop_name⟩ := pr
      rw [hshop] at h
      simp only at h
      cases hloop : imageLoopC env
          (product_folder main_category sub_category product_id)
          soup.imageTags fs with
      | error fs2 =>
        rw [hloop] at h
        cases h
        have := imageLoopC_noJson env
          (product_folder main_category sub_category product_id)
          soup.imageTags fs p hp
        rw [hloop] at this
        exact this
      | ok pr2 =>
        obtain ⟨fs2, images⟩ := pr2
        rw [hloop] at h
        cases h

theorem extract_core_x_error_noJson (env : Env) (product_id product_url : String)
    (fs fs1 : FS) (p : String)
    (h : extract_core_x env product_id product_url fs = .error fs1)
    (hp : noJsonAt fs p) : noJsonAt fs1 p := by
  unfold extract_core_x at h
  cases henv : env.page with
  | fail =>
    rw [henv] at h
    cases h
    exact hp
  | ok soup =>
    rw [henv] at h
    dsimp only at h
    cases hshop : shopStepX soup.shop with
    | error e =>
      rw [hshop] at h
      cases h
      exact hp
    | ok pr =>
      obtain ⟨shop_url, shop_name⟩ := pr
      rw [hshop] at h
      simp only at h
      cases hloop : imageLoopX env product_id soup.imageTags [] fs with
      | error fs2 =>
        rw [hloop] at h
        cases h
        have := imageLoopX_noJson env product_id soup.imageTags [] fs p hp
        rw [hloop] at this
        exact this
      | ok pr2 =>
        obtain ⟨fs2, images⟩ := pr2
        rw [hloop] at h
        cases h

/-- C2: in both files, when any step of the per-product extraction raises,
the catch-all makes `extract_product_metadata` return normally with the
state at the raise (never propagating to the pagination loop), no
products-table row is inserted, and no JSON sidecar appears at the
product's sidecar path. -/
theorem extraction_exception_no_persist :
    (∀ (env : Env) (main_category sub_category product_id product_url : String)
      (fs fs1 : FS) (rows : List ProductRow),
      extract_core env main_category sub_category product_id product_url fs =
        .error fs1 →
      extract_product_metadata env main_category sub_category product_id
        product_url fs = fs1 ∧
      (crawl_one_product env main_category sub_category product_id product_url
        ⟨fs, rows⟩).products = rows ∧
      (noJsonAt fs (jsonPathC main_category sub_category product_id) →
        noJsonAt fs1 (jsonPathC main_category sub_category product_id))) ∧
    (∀ (env : Env) (product_id product_url : String) (fs fs1 : FS),
      extract_core_x env product_id product_url fs = .error fs1 →
      extract_product_metadata_x env product_id product_url fs = fs1 ∧
      (noJsonAt fs (jsonPathX product_id) →
        noJsonAt fs1 (jsonPathX product_id))) := by
  constructor
  · intro env main_category sub_category product_id product_url fs fs1 rows h
    refine ⟨?_, ?_, ?_⟩
    · unfold extract_product_metadata
      rw [h]
    · unfold crawl_one_product
      rw [show (CrawlState.mk fs rows).fs = fs from rfl, h]
    · intro hp
      exact extract_core_error_noJson env main_category sub_category product_id
        product_url fs fs1 _ h hp
  · intro env product_id product_url fs fs1 h
    refine ⟨?_, ?_⟩
    · unfold extract_product_metadata_x
      rw [h]
    · intro hp
      exact extract_core_x_error_noJson env product_id product_url fs fs1 _ h hp

theorem extraction_exception_no_persist_witness :
    extract_product_metadata envFail "m" "s" "p1" "u" [] = [] ∧
    (crawl_one_product envFail "m" "s" "p1" "u" ⟨[], []⟩).products = [] := by
  have h := extraction_exception_no_persist.1 envFail "m" "s" "p1" "u" [] [] [] rfl
  exact ⟨h.1, h.2.1⟩

/-- C1: for every product whose extraction completes, the JSON sidecar for
the extracted metadata is on disk at the per-product path, and (with the
spec-modelled insert of the pipeline file missing from src/) exactly one
row is appended to the products table referencing the sidecar path and the
image folder path. -/
theorem record_persistence (env : Env)
    (main_category sub_category product_id product_url : String) (fs : FS)
    (rows : List ProductRow) (fs1 : FS) (md : Metadata) (jp : String)
    (h : extract_core env main_category sub_category product_id product_url fs =
      .ok (fs1, md, jp)) :
    jp = jsonPathC main_category sub_category product_id ∧
    fs1.lookup jp = some (.json md) ∧
    (crawl_one_product env main_category sub_category product_id product_url
      ⟨fs, rows⟩).fs = fs1 ∧
    (crawl_one_product env main_category sub_category product_id product_url
      ⟨fs, rows⟩).products = rows ++
      [{ main_category := md.main_category.getD "",
         sub_category := md.sub_category.getD "",
         title := md.title, old_price := md.old_price, new_price := md.price,
         description := md.description, seller_url := md.shop_url,
         image_folder := product_folder main_category sub_category product_id,
         json_path := jp }] := by
  have h0 := h
  unfold extract_core at h
  cases henv : env.page with
  | fail =>
    rw [henv] at h
    cases h
  | ok soup =>
    rw [henv] at h
    dsimp only at h
    cases hshop : shopStepC env.base_url soup.shop with
    | error e =>
      rw [hshop] at h
      cases h
    | ok pr =>
      obtain ⟨shop_url, shop_name⟩ := pr
      rw [hshop] at h
      simp only at h
      cases hloop : imageLoopC env
          (product_folder main_category sub_category product_id)
          soup.imageTags fs with
      | error fs2 =>
        rw [hloop] at h
        cases h
      | ok pr2 =>
        obtain ⟨fs2, images⟩ := pr2
        rw [hloop] at h
        simp only [Except.ok.injEq, Prod.mk.injEq] at h
        obtain ⟨hfs, hmd, hjp⟩ := h
        subst hfs
        subst hmd
        subst hjp
        refine ⟨rfl, lookup_setFile_self _ _ _, ?_, ?_⟩
        · unfold crawl_one_product
          rw [show (CrawlState.mk fs rows).fs = fs from rfl, h0]
        · unfold crawl_one_product
          rw [show (CrawlState.mk fs rows).fs = fs from rfl, h0]
          rfl

theorem record_persistence_witness :
    (crawl_one_product envEmptyPage "m" "s" "p1" "u" ⟨[], []⟩).fs.lookup
      (jsonPathC "m" "s" "p1") = some (.json mdEmpty) ∧
    (crawl_one_product envEmptyPage "m" "s" "p1" "u" ⟨[], []⟩).products.length = 1 := by
  have h : extract_core envEmptyPage "m" "s" "p1" "u" [] =
      .ok (setFile [] (jsonPathC "m" "s" "p1") (.json mdEmpty), mdEmpty,
        jsonPathC "m" "s" "p1") := rfl
  have hr := record_persistence envEmptyPage "m" "s" "p1" "u" [] [] _ _ _ h
  refine ⟨?_, ?_⟩
  · rw [hr.2.2.1]
    exact hr.2.1
  · rw [hr.2.2.2]
    rfl

/-! ## Image handling claims (C3, C8, C9) -/

theorem save_image_ok (env : Env) (url folder filename : String) (status : Nat)
    (body : Bytes) (fs : FS) (h : env.image url = .resp status body)
    (hs : ¬ statusRaises status) :
    save_image env url folder filename fs =
      (some (pathJoin folder filename),
        setFile fs (pathJoin folder filename) (.img body)) := by
  unfold save_image
  rw [h]
  dsimp only
  rw [if_neg hs]

theorem imageLoopX_seen (env : Env) (product_id url : String) :
    ∀ (n : Nat) (seen : List String) (fs : FS), url ∈ seen →
      imageLoopX env product_id (List.replicate n ⟨some url⟩) seen fs =
        .ok (fs, []) := by
  intro n
  induction n with
  | zero =>
    intro seen fs h
    rfl
  | succ n ih =>
    intro seen fs h
    rw [List.replicate_succ]
    simp only [imageLoopX]
    rw [if_neg (fun hc => hc.2 h)]
    exact ih seen fs h

theorem imageLoopC_all_src (env : Env) (folder : String) :
    ∀ (urls : List String) (fs : FS),
      ∃ fs2, imageLoopC env folder (urls.map (fun u => ⟨some u⟩)) fs =
        .ok (fs2, urls.map (fun u => pathJoin folder (basename u))) := by
  intro urls
  induction urls with
  | nil =>
    intro fs
    exact ⟨fs, rfl⟩
  | cons u rest ih =>
    intro fs
    obtain ⟨fs2, hrec⟩ := ih (save_image env u folder (basename u) fs).2
    refine ⟨fs2, ?_⟩
    simp only [List.map_cons, imageLoopC, hrec]

/-- C3 (amended): in x.py image URLs are de-duplicated with set semantics —
a page repeating one URL `k + 1` times yields exactly one downloaded file
and one entry in the images list — while in clothing_crawler.py images are
not de-duplicated: the same URL twice is downloaded twice to the same path
(one file on disk) and appended twice to the images list. -/
theorem image_dedup_amended :
    (∀ (env : Env) (product_id url : String) (status : Nat) (body : Bytes)
      (fs : FS) (k : Nat),
      url ≠ "" → env.image url = .resp status body → ¬ statusRaises status →
      imageLoopX env product_id (List.replicate (k + 1) ⟨some url⟩) [] fs =
        .ok (setFile fs (pathJoin (pathJoin "assets" product_id) (basename url))
            (.img body),
          [pathJoin (pathJoin "assets" product_id) (basename url)])) ∧
    (∀ (env : Env) (folder url : String) (status : Nat) (body : Bytes) (fs : FS),
      env.image url = .resp status body → ¬ statusRaises status →
      imageLoopC env folder (List.replicate 2 ⟨some url⟩) fs =
        .ok (setFile (setFile fs (pathJoin folder (basename url)) (.img body))
            (pathJoin folder (basename url)) (.img body),
          [pathJoin folder (basename url), pathJoin folder (basename url)])) := by
  constructor
  · intro env product_id url status body fs k hne himg hs
    rw [List.replicate_succ]
    simp only [imageLoopX]
    rw [if_pos ⟨hne, List.not_mem_nil url⟩, himg]
    dsimp only
    rw [if_neg hs]
    rw [imageLoopX_seen env product_id url k [url] _ (List.mem_singleton.mpr rfl)]
  · intro env folder url status body fs himg hs
    have h1 := save_image_ok env url folder (basename url) status body fs himg hs
    have h2 := save_image_ok env url folder (basename url) status body
      (setFile fs (pathJoin folder (basename url)) (.img body)) himg hs
    rw [show List.replicate 2 (⟨some url⟩ : ImgTag) = [⟨some url⟩, ⟨some url⟩] from rfl]
    simp only [imageLoopC, h1, h2]

theorem image_dedup_amended_witness :
    imageLoopX
      { base_url := "b", page := .fail, image := fun _ => .resp 200 [7] }
      "p1" (List.replicate 2 ⟨some "http://h/i.jpg"⟩) [] [] =
      .ok ([("assets/p1/i.jpg", .img [7])], ["assets/p1/i.jpg"]) :=
  image_dedup_amended.1
    { base_url := "b", page := .fail, image := fun _ => .resp 200 [7] }
    "p1" "http://h/i.jpg" 200 [7] [] 1 (by decide) rfl (by decide)

theorem image_dedup_counterexample :
    (extract_product_metadata envDup "m" "s" "p1" "u" []).lookup
      (jsonPathC "m" "s" "p1") = some (.json mdDup) ∧
    mdDup.images.length = 2 := by
  constructor
  · decide
  · decide

/-- C8 (amended): `save_image` returns `None`, writes nothing, and raises
no exception when the image fetch fails with a connection error or with a
status code in 400–599 (the statuses `raise_for_status` treats as
failures; other non-2xx statuses are not treated as failures — see the
counterexample). -/
theorem save_image_failure (env : Env) (url folder filename : String) (fs : FS) :
    (env.image url = .connectError →
      save_image env url folder filename fs = (none, fs)) ∧
    (∀ (status : Nat) (body : Bytes), env.image url = .resp status body →
      statusRaises status → save_image env url folder filename fs = (none, fs)) := by
  constructor
  · intro h
    unfold save_image
    rw [h]
  · intro status body h hs
    unfold save_image
    rw [h]
    dsimp only
    rw [if_pos hs]

theorem save_image_failure_witness :
    save_image { base_url := "b", page := .fail, image := fun _ => .connectError }
      "http://h/i.jpg" "f" "n" [] = (none, []) :=
  (save_image_failure
    { base_url := "b", page := .fail, image := fun _ => .connectError }
    "http://h/i.jpg" "f" "n" []).1 rfl

theorem save_image_counterexample :
    env300.image "http://h/i.jpg" = .resp 300 [7] ∧
    ¬ (200 ≤ (300 : Nat) ∧ (300 : Nat) < 300) ∧
    save_image env300 "http://h/i.jpg" "f" "n" [] =
      (some "f/n", [("f/n", FileData.img [7])]) := by
  refine ⟨rfl, by decide, by decide⟩

/-- C9: in clothing_crawler.py the path of every matched image is appended
to the metadata images list unconditionally — the list is a function of
the matched tags alone, whatever `save_image` returned — so the persisted
sidecar can point at files that were never written (concrete second
conjunct: the download failed, the sidecar lists the path, no file exists
at it). -/
theorem images_appended_unconditionally :
    (∀ (env : Env) (main_category sub_category product_id product_url : String)
      (fs fs1 : FS) (md : Metadata) (jp : String) (soup : ProductSoup)
      (urls : List String),
      env.page = .ok soup →
      soup.imageTags = urls.map (fun u => ⟨some u⟩) →
      extract_core env main_category sub_category product_id product_url fs =
        .ok (fs1, md, jp) →
      md.images = urls.map (fun u =>
        pathJoin (product_folder main_category sub_category product_id)
          (basename u))) ∧
    ((extract_product_metadata envC9 "m" "s" "p1" "u" []).lookup
        "assets/m/s/p1/i.jpg" = none ∧
      (extract_product_metadata envC9 "m" "s" "p1" "u" []).lookup
        (jsonPathC "m" "s" "p1") = some (.json mdC9) ∧
      mdC9.images = ["assets/m/s/p1/i.jpg"]) := by
  constructor
  · intro env main_category sub_category product_id product_url fs fs1 md jp
      soup urls henv hts h
    unfold extract_core at h
    rw [henv] at h
    dsimp only at h
    cases hshop : shopStepC env.base_url soup.shop with
    | error e =>
      rw [hshop] at h
      cases h
    | ok pr =>
      obtain ⟨shop_url, shop_name⟩ := pr
      rw [hshop] at h
      simp only at h
      obtain ⟨fs2, hloop⟩ := imageLoopC_all_src env
        (product_folder main_category sub_category product_id) urls fs
      rw [hts, hloop] at h
      simp only [Except.ok.injEq, Prod.mk.injEq] at h
      obtain ⟨hfs, hmd, hjp⟩ := h
      subst hmd
      rfl
  · exact ⟨by decide, by decide, rfl⟩

theorem images_appended_unconditionally_witness :
    mdC9.images = List.map
      (fun u => pathJoin (product_folder "m" "s" "p1") (basename u))
      ["http://h/i.jpg"] :=
  images_appended_unconditionally.1 envC9 "m" "s" "p1" "u" []
    (setFile [] (jsonPathC "m" "s" "p1") (.json mdC9)) mdC9
    (jsonPathC "m" "s" "p1") soupC9 ["http://h/i.jpg"] rfl rfl rfl

end Shopino
